import Mathlib

set_option maxRecDepth 100000

/-!
Shallow embedding of the TLF_Packager_CLI document-assembly and TOC engine.

The three Python scripts (`TLF_Packager.py`, `pack_pdfs_with_toc.py`,
`pack_rtfs_with_toc.py`) share one engine: merge PDF fragments while
recording bookmarks, wrap TOC titles, paginate them, render TOC pages with
dot leaders and link rectangles, then rebase bookmarks and links by the TOC
page count.  The text-width measurer (`fitz.get_text_length`) is an external
capability of the PyMuPDF library; following the spec ("any text-shaping /
measurement facility satisfies it") it is modelled as an abstract parameter
`measure : String → ℚ → ℚ` (text, fontsize ↦ width).  Python float
arithmetic on the small page-geometry constants involved is modelled with
exact rationals; Python `//` on floats is `Int.floor` of the exact quotient.
-/

namespace TLFPack

/-- Character loop for `splitWords`: accumulate the current word (reversed)
and cut at whitespace, dropping empty pieces. -/
def splitWordsAux : List Char → List Char → List String
  | [], cur => if cur.isEmpty then [] else [String.mk cur.reverse]
  | c :: cs, cur =>
    if c.isWhitespace then
      (if cur.isEmpty then [] else [String.mk cur.reverse]) ++ splitWordsAux cs []
    else
      splitWordsAux cs (c :: cur)

/-- Python `str.split()` with no separator: split on whitespace runs,
dropping empty pieces. -/
def splitWords (s : String) : List String :=
  splitWordsAux s.data []

/-- Python truthiness of `line.strip()`: the line has a non-whitespace
character. -/
def hasContent (s : String) : Bool :=
  s.data.any (fun c => ¬ c.isWhitespace)

/-- Python `str.strip()`: drop leading and trailing whitespace. -/
def pyStrip (s : String) : String :=
  String.mk (((s.data.dropWhile Char.isWhitespace).reverse.dropWhile
    Char.isWhitespace).reverse)

/-- Python `len(s.split())`: the number of whitespace-separated words. -/
def countWords (s : String) : Nat := (splitWords s).length

/-- Abstract text-width measurer: `fitz.get_text_length(text, fontsize)`. -/
abbrev Measure := String → ℚ → ℚ

/-- A concrete measurer instance used for concrete evaluations: width of a
string is its character count (the fontsize argument is ignored).  Any
measurement facility satisfies the spec's Measurer contract. -/
def strLen : Measure := fun s _ => (s.length : ℚ)

namespace TLF

/-- Word loop of `wrap_toc_title` in `TLF_Packager.py` (lines 455-469):
greedy fill; on overflow flush the (nonempty) current line and restart from
the overflowing word. -/
def wrapLoop (measure : Measure) (font_size max_width : ℚ) :
    List String → String → List String → List String
  | [], current_line, lines =>
    if current_line ≠ "" then lines ++ [current_line] else lines
  | word :: rest, current_line, lines =>
    let test_line := current_line ++ (if current_line ≠ "" then " " else "") ++ word
    if measure test_line font_size ≤ max_width then
      wrapLoop measure font_size max_width rest test_line lines
    else
      wrapLoop measure font_size max_width rest word
        (if current_line ≠ "" then lines ++ [current_line] else lines)

/-- `wrap_toc_title` of `TLF_Packager.py`: split `(title or "")` into words,
run the greedy loop, and drop whitespace-only lines. -/
def wrap_toc_title (measure : Measure) (title : String) (font_size max_width : ℚ) :
    List String :=
  (wrapLoop measure font_size max_width (splitWords title) "" []).filter
    (fun line => hasContent line)

end TLF

namespace PackPdfs

/-- Word loop of `wrap_toc_title` in `pack_pdfs_with_toc.py` (lines 66-82).
It differs from the TLF_Packager loop: the first word is installed
unconditionally, and a word is appended to a one-word current line even when
the width test fails (`... or len(current_line.split()) == 1`). -/
def wrapLoop (measure : Measure) (font_size max_width : ℚ) :
    List String → String → List String → List String
  | [], current_line, lines =>
    if current_line ≠ "" then lines ++ [current_line] else lines
  | word :: rest, current_line, lines =>
    if current_line = "" then
      wrapLoop measure font_size max_width rest word lines
    else
      let test_line := current_line ++ " " ++ word
      if measure test_line font_size ≤ max_width ∨ countWords current_line = 1 then
        wrapLoop measure font_size max_width rest test_line lines
      else
        wrapLoop measure font_size max_width rest word (lines ++ [current_line])

/-- `wrap_toc_title` of `pack_pdfs_with_toc.py`. -/
def wrap_toc_title (measure : Measure) (title : String) (font_size max_width : ℚ) :
    List String :=
  (wrapLoop measure font_size max_width (splitWords title) "" []).filter
    (fun line => hasContent line)

end PackPdfs

namespace PackRtfs

/-- Word loop of `wrap_toc_title` in `pack_rtfs_with_toc.py` (lines 83-99);
the code is character-for-character the same as in `pack_pdfs_with_toc.py`. -/
def wrapLoop (measure : Measure) (font_size max_width : ℚ) :
    List String → String → List String → List String
  | [], current_line, lines =>
    if current_line ≠ "" then lines ++ [current_line] else lines
  | word :: rest, current_line, lines =>
    if current_line = "" then
      wrapLoop measure font_size max_width rest word lines
    else
      let test_line := current_line ++ " " ++ word
      if measure test_line font_size ≤ max_width ∨ countWords current_line = 1 then
        wrapLoop measure font_size max_width rest test_line lines
      else
        wrapLoop measure font_size max_width rest word (lines ++ [current_line])

/-- `wrap_toc_title` of `pack_rtfs_with_toc.py`. -/
def wrap_toc_title (measure : Measure) (title : String) (font_size max_width : ℚ) :
    List String :=
  (wrapLoop measure font_size max_width (splitWords title) "" []).filter
    (fun line => hasContent line)

end PackRtfs

/-- One entry of `doc.get_toc()`: `[level, title, page]` with a 1-based page
number, as produced by `merge_pdfs_with_bookmarks` and consumed by
`set_toc`. -/
structure Bookmark where
  level : ℤ
  title : String
  page : ℤ
deriving DecidableEq

/-- One TOC entry as produced by `extract_toc_entries`:
`(lvl, title.strip(), page_num - 1)` — the target page is 0-based within the
merged body. -/
structure TocEntry where
  level : ℤ
  title : String
  target : ℤ
deriving DecidableEq

/-- `extract_toc_entries` (identical nested helper in all three scripts):
strip each title and convert the 1-based `get_toc` page to a 0-based one. -/
def extract_toc_entries (bookmarks : List Bookmark) : List TocEntry :=
  bookmarks.map (fun b => ⟨b.level, pyStrip b.title, b.page - 1⟩)

/-- One TOC page: the entries placed on it, each with its wrapped lines. -/
abbrev Page := List (TocEntry × List String)

/-- `int((page_height - 100) // y_spacing)` with `y_spacing = font_size * 1.5`:
the raw per-page line budget before any banner reservation. -/
def rawLinesPerPage (font_size page_height : ℚ) : ℤ :=
  ⌊(page_height - 100) / (font_size * 1.5)⌋

/-- The entry loop shared by every `paginate_wrapped_entries`: walk the
entries in order keeping the current page and its line count; when adding an
entry's lines would exceed `lines_per_page`, emit the current page (even if
it is empty) and start a new one with that entry; finally emit the last page
if it is nonempty.  `wrapOf` is the per-entry wrapping (including the
per-level indent narrowing) done at the top of the loop body. -/
def paginateLoop (wrapOf : TocEntry → List String) (lines_per_page : ℤ) :
    List TocEntry → Page → ℤ → List Page
  | [], current_page_entries, _ =>
    if current_page_entries.isEmpty then [] else [current_page_entries]
  | entry :: rest, current_page_entries, current_line_count =>
    let wrapped_lines := wrapOf entry
    let line_count : ℤ := (wrapped_lines.length : ℤ)
    if current_line_count + line_count > lines_per_page then
      current_page_entries ::
        paginateLoop wrapOf lines_per_page rest [(entry, wrapped_lines)] line_count
    else
      paginateLoop wrapOf lines_per_page rest
        (current_page_entries ++ [(entry, wrapped_lines)])
        (current_line_count + line_count)

namespace TLF

/-- `paginate_wrapped_entries` nested in `add_toc_and_links` of
`TLF_Packager.py` (lines 475-493): the budget is always reduced by 2 (the
banner is unconditional there), and wrapping uses the TLF_Packager
`wrap_toc_title` with the width narrowed by `20 * (level - 1)`. -/
def paginate_wrapped_entries (measure : Measure) (toc_entries : List TocEntry)
    (font_size toc_text_max_width page_height : ℚ) : List Page :=
  let lines_per_page := rawLinesPerPage font_size page_height - 2
  paginateLoop
    (fun e =>
      wrap_toc_title measure e.title font_size
        (toc_text_max_width - ((20 * (e.level - 1) : ℤ) : ℚ)))
    lines_per_page toc_entries [] 0

end TLF

namespace PackPdfs

/-- `paginate_wrapped_entries` nested in `add_toc_and_links` of
`pack_pdfs_with_toc.py` (lines 88-107): the budget is reduced by 2 exactly
when `include_toc_title` is set — and then for every page, not only the
first. -/
def paginate_wrapped_entries (measure : Measure) (toc_entries : List TocEntry)
    (font_size toc_text_max_width page_height : ℚ) (include_toc_title : Bool) :
    List Page :=
  let raw := rawLinesPerPage font_size page_height
  let lines_per_page := if include_toc_title then raw - 2 else raw
  paginateLoop
    (fun e =>
      wrap_toc_title measure e.title font_size
        (toc_text_max_width - ((20 * (e.level - 1) : ℤ) : ℚ)))
    lines_per_page toc_entries [] 0

end PackPdfs

/-- One `page.insert_text((x, y), text, fontsize=...)` call on a TOC page. -/
structure DrawOp where
  x : ℚ
  y : ℚ
  text : String
  fontsize : ℚ
deriving DecidableEq

/-- A `fitz.Rect(x0, y0, x1, y1)`. -/
structure Rect where
  x0 : ℚ
  y0 : ℚ
  x1 : ℚ
  y1 : ℚ
deriving DecidableEq

/-- One element of `link_targets`: `(page_index, rect, target_page)` with the
raw (pre-rebase) 0-based body target page. -/
structure LinkTarget where
  pageIndex : ℕ
  rect : Rect
  targetPage : ℤ
deriving DecidableEq

/-- A navigable link written by `add_toc_hyperlinks`: destination page is
0-based absolute in the final document. -/
structure Link where
  pageIndex : ℕ
  rect : Rect
  destPage : ℤ
deriving DecidableEq

/-- The wrapped-line loop of `generate_toc_pages` (identical in all three
scripts): draw each line at `(x, y)`; on the last line also draw the
dot-leader fill and the right-aligned page number; advance `y` by
`y_spacing` per line.  Returns the draw calls and the final `y`. -/
def renderLines (measure : Measure)
    (font_size y_spacing x page_number_x page_number_width_local gap : ℚ)
    (page_number_str : String) : List String → ℚ → List DrawOp × ℚ
  | [], y => ([], y)
  | [line], y =>
    let line_width := measure line font_size
    let dots_start_x := x + line_width + 2
    let dotOps : List DrawOp :=
      if dots_start_x < page_number_x - page_number_width_local - gap then
        let dots_width := page_number_x - page_number_width_local - gap - dots_start_x
        let dot_char_width := measure "." font_size
        let dot_count := ⌊dots_width / dot_char_width⌋
        [⟨dots_start_x, y, String.mk (List.replicate dot_count.toNat '.'), font_size⟩]
      else []
    (⟨x, y, line, font_size⟩ :: dotOps ++
      [⟨page_number_x - page_number_width_local, y, page_number_str, font_size⟩],
     y + y_spacing)
  | line :: rest, y =>
    let res := renderLines measure font_size y_spacing x page_number_x
      page_number_width_local gap page_number_str rest (y + y_spacing)
    (⟨x, y, line, font_size⟩ :: res.1, res.2)

/-- The per-entry body of `generate_toc_pages` (identical in all three
scripts): compute the indent and start x, the displayed page number
`target_page + toc_page_count + 1` and its measured width, render the
wrapped lines from cursor `y`, and record the clickable rectangle spanning
from `first_line_y - font_size` down to the y after the last line.  Returns
the draw calls, the recorded `LinkTarget`, and the new cursor. -/
def renderEntry (measure : Measure)
    (font_size y_spacing page_number_x gap : ℚ) (toc_page_count : ℤ)
    (page_index : ℕ) (pr : TocEntry × List String) (y : ℚ) :
    List DrawOp × LinkTarget × ℚ :=
  let indent : ℤ := 20 * (pr.1.level - 1)
  let x : ℚ := 50 + (indent : ℚ)
  let page_number_str := toString (pr.1.target + toc_page_count + 1)
  let page_number_width_local := measure page_number_str font_size
  let first_line_y := y
  let res := renderLines measure font_size y_spacing x page_number_x
    page_number_width_local gap page_number_str pr.2 y
  (res.1, ⟨page_index, ⟨x, first_line_y - font_size, page_number_x, res.2⟩, pr.1.target⟩,
   res.2)

/-- Fold of `renderEntry` over the entries of one TOC page, threading the
cursor `y`. -/
def renderEntries (measure : Measure)
    (font_size y_spacing page_number_x gap : ℚ) (toc_page_count : ℤ)
    (page_index : ℕ) : List (TocEntry × List String) → ℚ →
    List DrawOp × List LinkTarget × ℚ
  | [], y => ([], [], y)
  | pr :: rest, y =>
    let r := renderEntry measure font_size y_spacing page_number_x gap
      toc_page_count page_index pr y
    let rs := renderEntries measure font_size y_spacing page_number_x gap
      toc_page_count page_index rest r.2.2
    (r.1 ++ rs.1, r.2.1 :: rs.2.1, rs.2.2)

/-- One iteration of the page loop of `generate_toc_pages`: start at the top
margin, draw the centered "Table of Contents" banner on the first page when
enabled and advance `y` by `font_size * 2`, then render the page's entries.
`TLF_Packager.py` has no flag and always draws the banner
(`include_toc_title = true` there). -/
def generatePage (measure : Measure)
    (font_size page_width page_number_x gap : ℚ) (toc_page_count : ℤ)
    (include_toc_title : Bool) (page_index : ℕ) (entries : Page) :
    List DrawOp × List LinkTarget :=
  let y_spacing := font_size * 1.5
  let y : ℚ := 50
  let banner : List DrawOp :=
    if include_toc_title ∧ page_index = 0 then
      let title_width := measure "Table of Contents" (font_size + 2)
      [⟨page_width / 2 - title_width / 2, y, "Table of Contents", font_size + 2⟩]
    else []
  let y := if include_toc_title ∧ page_index = 0 then y + font_size * 2 else y
  let r := renderEntries measure font_size y_spacing page_number_x gap
    toc_page_count page_index entries y
  (banner ++ r.1, r.2.1)

/-- The page loop of `generate_toc_pages` over `enumerate(paginated_entries)`:
collect each page's draw calls and concatenate the recorded link targets. -/
def generatePages (measure : Measure)
    (font_size page_width page_number_x gap : ℚ) (toc_page_count : ℤ)
    (include_toc_title : Bool) : ℕ → List Page →
    List (List DrawOp) × List LinkTarget
  | _, [] => ([], [])
  | page_index, pg :: rest =>
    let p := generatePage measure font_size page_width page_number_x gap
      toc_page_count include_toc_title page_index pg
    let r := generatePages measure font_size page_width page_number_x gap
      toc_page_count include_toc_title (page_index + 1) rest
    (p.1 :: r.1, p.2 ++ r.2)

namespace TLF

/-- `generate_toc_pages` nested in `add_toc_and_links` of `TLF_Packager.py`
(lines 495-540): the banner is unconditional on the first page. -/
def generate_toc_pages (measure : Measure) (paginated_entries : List Page)
    (font_size page_width : ℚ) (toc_page_count : ℤ)
    (page_number_x gap : ℚ) : List (List DrawOp) × List LinkTarget :=
  generatePages measure font_size page_width page_number_x gap toc_page_count
    true 0 paginated_entries

end TLF

namespace PackPdfs

/-- `generate_toc_pages` nested in `add_toc_and_links` of
`pack_pdfs_with_toc.py` (lines 109-154): banner controlled by
`include_toc_title`. -/
def generate_toc_pages (measure : Measure) (paginated_entries : List Page)
    (font_size page_width : ℚ) (toc_page_count : ℤ)
    (page_number_x gap : ℚ) (include_toc_title : Bool) :
    List (List DrawOp) × List LinkTarget :=
  generatePages measure font_size page_width page_number_x gap toc_page_count
    include_toc_title 0 paginated_entries

end PackPdfs

/-- `add_toc_hyperlinks` (identical nested helper in all three scripts): for
each recorded link target insert a LINK_GOTO whose destination page is
`target_page + toc_page_count`. -/
def add_toc_hyperlinks (link_targets : List LinkTarget) (toc_page_count : ℤ) :
    List Link :=
  link_targets.map (fun lt => ⟨lt.pageIndex, lt.rect, lt.targetPage + toc_page_count⟩)

/-- `shift_bookmark_pages` (identical nested helper in all three scripts):
add `offset` to every bookmark's stored page number.  (The Python guard
`len([lvl, title, page]) >= 3` is a tautology on a 3-element list.) -/
def shift_bookmark_pages (bookmarks : List Bookmark) (offset : ℤ) : List Bookmark :=
  bookmarks.map (fun b => ⟨b.level, b.title, b.page + offset⟩)

/-- Output of the assembly coordinator `add_toc_and_links`: the TOC page
count, the recorded link targets, the links actually inserted in the final
document, and the final bookmark outline set by `set_toc`. -/
structure AssembleOut where
  tocPageCount : ℤ
  linkTargets : List LinkTarget
  links : List Link
  bookmarks : List Bookmark
deriving DecidableEq

namespace TLF

/-- The assembly pipeline of `add_toc_and_links` in `TLF_Packager.py`
(lines 471-587): A4 geometry `fitz.paper_size("a4") = (595, 842)`, margins
50/60, page-number column reserved for `str(99999)`, gap 8; extract the TOC
source from the base document's bookmarks, paginate, generate the TOC pages
with `toc_page_count = len(paginated)`, then insert the hyperlinks with
destination `target_page + toc_page_count` and set the rebased bookmark
outline. -/
def add_toc_and_links (measure : Measure) (baseBookmarks : List Bookmark)
    (font_size : ℚ) : AssembleOut :=
  let width : ℚ := 595
  let height : ℚ := 842
  let left_margin : ℚ := 50
  let right_margin : ℚ := 60
  let page_number_width := measure "99999" font_size
  let page_number_x := width - right_margin
  let gap : ℚ := 8
  let toc_text_max_width := page_number_x - left_margin - page_number_width - gap
  let original_toc := extract_toc_entries baseBookmarks
  let paginated := paginate_wrapped_entries measure original_toc font_size
    toc_text_max_width height
  let gen := generate_toc_pages measure paginated font_size width
    (paginated.length : ℤ) page_number_x gap
  let toc_page_count : ℤ := (paginated.length : ℤ)
  { tocPageCount := toc_page_count
    linkTargets := gen.2
    links := add_toc_hyperlinks gen.2 toc_page_count
    bookmarks := shift_bookmark_pages baseBookmarks toc_page_count }

end TLF

namespace PackPdfs

/-- One fragment reaching `merge_pdfs_with_bookmarks` in
`pack_pdfs_with_toc.py` / `pack_rtfs_with_toc.py`: its bookmark title and
the result of `fitz.open(entry['pdf'])` — `some pageCount` when the document
opens, `none` when opening raises. -/
structure MergeEntry where
  title : String
  doc : Option ℕ
deriving DecidableEq

/-- The fragment loop of `merge_pdfs_with_bookmarks`
(`pack_pdfs_with_toc.py` lines 53-64, identical in `pack_rtfs_with_toc.py`
lines 70-81): for each entry open the document (an open failure raises and
aborts the whole merge — `none`), record `[1, title, start + 1]` with
`start = len(merged)` before the insert, and append the pages.  Only after
the loop are `set_toc` and `save` reached: `some (toc, total pages)`. -/
def mergeLoop : List MergeEntry → List Bookmark → ℕ → Option (List Bookmark × ℕ)
  | [], toc, page_count => some (toc, page_count)
  | e :: rest, toc, page_count =>
    match e.doc with
    | none => none
    | some n => mergeLoop rest (toc ++ [⟨1, e.title, (page_count : ℤ) + 1⟩]) (page_count + n)

/-- `merge_pdfs_with_bookmarks` of the two pack scripts: `none` means the
merge aborted before anything was written to the output path. -/
def merge_pdfs_with_bookmarks (entries : List MergeEntry) :
    Option (List Bookmark × ℕ) :=
  mergeLoop entries [] 0

end PackPdfs

namespace TLF

/-- One entry reaching `merge_pdfs_with_bookmarks` in `TLF_Packager.py`: the
Excel bookmark text, the basename fallback, and the outcome of
converting/opening the fragment (`none` when `convert_rtf_to_pdf` or
`fitz.open` raises). -/
structure MergeEntry where
  bookmark : String
  fallbackName : String
  doc : Option ℕ
deriving DecidableEq

/-- The fragment loop of `merge_pdfs_with_bookmarks` in `TLF_Packager.py`
(lines 425-446): open each fragment (a failure raises and aborts the merge),
record `[1, (bookmark or basename).strip(), page_count + 1]`, and add the
fragment's pages to `page_count`.  `set_toc` and `save` run only after the
loop. -/
def mergeLoop : List MergeEntry → List Bookmark → ℕ → Option (List Bookmark × ℕ)
  | [], toc, page_count => some (toc, page_count)
  | e :: rest, toc, page_count =>
    match e.doc with
    | none => none
    | some n =>
      let bm := pyStrip (if e.bookmark ≠ "" then e.bookmark else e.fallbackName)
      mergeLoop rest (toc ++ [⟨1, bm, (page_count : ℤ) + 1⟩]) (page_count + n)

/-- `merge_pdfs_with_bookmarks` of `TLF_Packager.py`: `none` means the merge
aborted before `merged.save(output_path)` was reached. -/
def merge_pdfs_with_bookmarks (entries : List MergeEntry) :
    Option (List Bookmark × ℕ) :=
  mergeLoop entries [] 0

end TLF

/-- The bookmark list built by the pack merge loop from fragments
`(title, pageCount)` starting at a given prior page count: one level-1
bookmark per fragment whose stored 1-based page is the cumulative page count
of all prior fragments plus one. -/
def cumToc : List (String × ℕ) → ℕ → List Bookmark
  | [], _ => []
  | p :: rest, page_count =>
    ⟨1, p.1, (page_count : ℤ) + 1⟩ :: cumToc rest (page_count + p.2)

/-- Total line count of one TOC page (sum of its entries' wrapped-line
counts). -/
def sumLc (page : Page) : ℤ :=
  ((page.map (fun pr => pr.2.length)).sum : ℕ)

/-- Wrapped-line count of the first entry of a page (0 for an empty page). -/
def headLc (page : Page) : ℤ :=
  match page.head? with
  | some pr => (pr.2.length : ℤ)
  | none => 0

end TLFPack

namespace TLFPack

/-! ### Helper lemmas about the merge loop -/

theorem mergeLoop_map_some (ps : List (String × ℕ)) :
    ∀ (toc : List Bookmark) (pc : ℕ),
      PackPdfs.mergeLoop (ps.map (fun p => ⟨p.1, some p.2⟩)) toc pc =
        some (toc ++ cumToc ps pc, pc + (ps.map Prod.snd).sum) := by
  induction ps with
  | nil => intro toc pc; simp [PackPdfs.mergeLoop, cumToc]
  | cons p rest ih =>
    intro toc pc
    simp only [List.map_cons, PackPdfs.mergeLoop, cumToc, ih, List.append_assoc,
      List.singleton_append, List.map, List.sum_cons, Option.some.injEq, Prod.mk.injEq,
      true_and]
    omega

theorem cumToc_length (ps : List (String × ℕ)) : ∀ pc, (cumToc ps pc).length = ps.length := by
  induction ps with
  | nil => intro pc; rfl
  | cons p rest ih => intro pc; simp [cumToc, ih]

theorem cumToc_getElem? (ps : List (String × ℕ)) :
    ∀ (pc i : ℕ), i < ps.length →
      (cumToc ps pc)[i]? =
        some ⟨1, (ps.getD i default).1, (pc : ℤ) + (((ps.take i).map Prod.snd).sum : ℕ) + 1⟩ := by
  induction ps with
  | nil => intro pc i hi; cases hi
  | cons p rest ih =>
    intro pc i hi
    cases i with
    | zero => simp [cumToc]
    | succ i =>
      have hi' : i < rest.length := by simpa using hi
      simp only [cumToc, List.getElem?_cons_succ, ih (pc + p.2) i hi', List.getD_cons_succ,
        List.take_succ_cons, List.map_cons, List.sum_cons, Option.some.injEq, Bookmark.mk.injEq,
        true_and]
      push_cast
      ring_nf

theorem cumToc_page_lb (ps : List (String × ℕ)) :
    ∀ (pc : ℕ) (b : Bookmark), b ∈ cumToc ps pc → (pc : ℤ) + 1 ≤ b.page := by
  induction ps with
  | nil => intro pc b hb; cases hb
  | cons p rest ih =>
    intro pc b hb
    simp only [cumToc, List.mem_cons] at hb
    rcases hb with rfl | hb
    · simp
    · have := ih (pc + p.2) b hb
      push_cast at this ⊢
      omega

theorem cumToc_pairwise (ps : List (String × ℕ)) :
    ∀ pc, List.Pairwise (fun a b => a.page ≤ b.page) (cumToc ps pc) := by
  induction ps with
  | nil => intro pc; exact List.Pairwise.nil
  | cons p rest ih =>
    intro pc
    refine List.Pairwise.cons ?_ (ih (pc + p.2))
    intro b hb
    have := cumToc_page_lb rest (pc + p.2) b hb
    simp only
    push_cast at this ⊢
    omega

theorem packMergeLoop_eq_none_iff :
    ∀ (es : List PackPdfs.MergeEntry) (toc : List Bookmark) (pc : ℕ),
      PackPdfs.mergeLoop es toc pc = none ↔ ∃ e ∈ es, e.doc = none := by
  intro es
  induction es with
  | nil => intro toc pc; simp [PackPdfs.mergeLoop]
  | cons e rest ih =>
    intro toc pc
    cases h : e.doc with
    | none => simp [PackPdfs.mergeLoop, h]
    | some n => simp [PackPdfs.mergeLoop, h, ih]

theorem tlfMergeLoop_eq_none_iff :
    ∀ (es : List TLF.MergeEntry) (toc : List Bookmark) (pc : ℕ),
      TLF.mergeLoop es toc pc = none ↔ ∃ e ∈ es, e.doc = none := by
  intro es
  induction es with
  | nil => intro toc pc; simp [TLF.mergeLoop]
  | cons e rest ih =>
    intro toc pc
    cases h : e.doc with
    | none => simp [TLF.mergeLoop, h]
    | some n => simp [TLF.mergeLoop, h, ih]

/-- The two `wrap_toc_title` functions of the pack scripts agree on the word
loop (the code is textually identical). -/
theorem packWrapLoop_eq (measure : Measure) (font_size max_width : ℚ) :
    ∀ (ws : List String) (cur : String) (acc : List String),
      PackRtfs.wrapLoop measure font_size max_width ws cur acc =
        PackPdfs.wrapLoop measure font_size max_width ws cur acc := by
  intro ws
  induction ws with
  | nil => intro cur acc; rfl
  | cons w rest ih =>
    intro cur acc
    simp only [PackRtfs.wrapLoop, PackPdfs.wrapLoop]
    by_cases h0 : cur = ""
    · simp [h0, ih]
    · simp only [h0, if_false]
      by_cases h1 : measure (cur ++ " " ++ w) font_size ≤ max_width ∨ countWords cur = 1
      · simp [h1, ih]
      · simp [h1, ih]

/-- Claim C2: for every ordered list of readable fragments with page counts
`p_1..p_n`, `merge_pdfs_with_bookmarks` saves the merged body and produces
exactly `n` level-1 bookmarks in fragment order whose stored 1-based page is
the cumulative page count of the prior fragments plus one — so the 0-based
page index (`stored - 1`) equals the cumulative sum, and the indices are
non-decreasing; the body's total page count is the sum of all fragment page
counts.  (The concrete `[2, 5, 1] → pages [0, 2, 7], total 8` instance is
the witness below.) -/
theorem claim_C2_merge_cumulative_bookmarks (ps : List (String × ℕ)) :
    PackPdfs.merge_pdfs_with_bookmarks (ps.map (fun p => ⟨p.1, some p.2⟩)) =
        some (cumToc ps 0, (ps.map Prod.snd).sum)
      ∧ (cumToc ps 0).length = ps.length
      ∧ (∀ i, i < ps.length →
          (cumToc ps 0)[i]? =
            some ⟨1, (ps.getD i default).1, (((ps.take i).map Prod.snd).sum : ℕ) + 1⟩)
      ∧ List.Pairwise (fun a b => a.page ≤ b.page) (cumToc ps 0) := by
  refine ⟨?_, cumToc_length ps 0, ?_, cumToc_pairwise ps 0⟩
  · have h := mergeLoop_map_some ps [] 0
    simpa [PackPdfs.merge_pdfs_with_bookmarks] using h
  · intro i hi
    have h := cumToc_getElem? ps 0 i hi
    simpa using h

/-- Witness for C2, the spec's Scenario A: three fragments with page counts
`[2, 5, 1]` and titles `["Table 1", "Listing 2", "Figure 1"]` merge into an
8-page body with stored 1-based bookmark pages `[1, 3, 8]`, i.e. 0-based
pages `[0, 2, 7]`. -/
theorem claim_C2_merge_cumulative_bookmarks_witness :
    PackPdfs.merge_pdfs_with_bookmarks
        [⟨"Table 1", some 2⟩, ⟨"Listing 2", some 5⟩, ⟨"Figure 1", some 1⟩] =
      some ([⟨1, "Table 1", 1⟩, ⟨1, "Listing 2", 3⟩, ⟨1, "Figure 1", 8⟩], 8)
    ∧ (cumToc [("Table 1", 2), ("Listing 2", 5), ("Figure 1", 1)] 0)[2]? =
        some ⟨1, "Figure 1", 8⟩ := by
  have h := claim_C2_merge_cumulative_bookmarks
    [("Table 1", 2), ("Listing 2", 5), ("Figure 1", 1)]
  refine ⟨?_, ?_⟩
  · have h1 := h.1
    rw [show (([("Table 1", 2), ("Listing 2", 5), ("Figure 1", 1)] :
        List (String × ℕ)).map (fun p => (⟨p.1, some p.2⟩ : PackPdfs.MergeEntry))) =
        [⟨"Table 1", some 2⟩, ⟨"Listing 2", some 5⟩, ⟨"Figure 1", some 1⟩] from rfl] at h1
    rw [h1]
    with_unfolding_all decide
  · have h2 := h.2.2.1 2 (by decide)
    rw [h2]
    with_unfolding_all decide

/-- Claim C8: in every script's `merge_pdfs_with_bookmarks`, the merged
output is saved if and only if every fragment opened successfully;
equivalently, if opening any fragment fails the whole merge aborts with no
output written (the save is only reached after the loop). -/
theorem claim_C8_merge_fail_fast :
    (∀ entries : List PackPdfs.MergeEntry,
        PackPdfs.merge_pdfs_with_bookmarks entries = none ↔ ∃ e ∈ entries, e.doc = none)
    ∧ (∀ entries : List TLF.MergeEntry,
        TLF.merge_pdfs_with_bookmarks entries = none ↔ ∃ e ∈ entries, e.doc = none) :=
  ⟨fun entries => packMergeLoop_eq_none_iff entries [] 0,
   fun entries => tlfMergeLoop_eq_none_iff entries [] 0⟩

/-- Counterexample to claim C5: on the title `"a b"` with `max_width = 0`
(under the character-count measurer) `TLF_Packager.py` wraps to two lines
while `pack_pdfs_with_toc.py` force-appends the second word to the one-word
line (`... or len(current_line.split()) == 1`) and yields one line — the
three scripts do not compute the same function. -/
theorem claim_C5_counterexample :
    TLF.wrap_toc_title strLen "a b" 8 0 = ["a", "b"]
    ∧ PackPdfs.wrap_toc_title strLen "a b" 8 0 = ["a b"]
    ∧ TLF.wrap_toc_title strLen "a b" 8 0 ≠ PackPdfs.wrap_toc_title strLen "a b" 8 0 := by
  with_unfolding_all decide

/-- Claim C5 as amended: only the two pack scripts' `wrap_toc_title`
functions compute the same function (they are textually identical);
`TLF_Packager.py`'s differs (see the counterexample). -/
theorem claim_C5_amended_pack_wrap_eq (measure : Measure) (title : String)
    (font_size max_width : ℚ) :
    PackRtfs.wrap_toc_title measure title font_size max_width =
      PackPdfs.wrap_toc_title measure title font_size max_width := by
  unfold PackRtfs.wrap_toc_title PackPdfs.wrap_toc_title
  rw [packWrapLoop_eq]

/-- Soundness invariant of the TLF_Packager wrap loop: with every processed
word drawn from `W`, every emitted line is either a word of `W` or measures
within `max_width`.  (A multi-word current line only ever arises from an
accepted, measured extension.) -/
theorem tlfWrapLoop_sound (measure : Measure) (font_size max_width : ℚ)
    (W : List String) :
    ∀ (ws : List String) (cur : String) (acc : List String),
      (∀ w ∈ ws, w ∈ W) →
      (∀ l ∈ acc, l ∈ W ∨ measure l font_size ≤ max_width) →
      (cur = "" ∨ cur ∈ W ∨ measure cur font_size ≤ max_width) →
      ∀ l ∈ TLF.wrapLoop measure font_size max_width ws cur acc,
        l ∈ W ∨ measure l font_size ≤ max_width := by
  intro ws
  induction ws with
  | nil =>
    intro cur acc _ hacc hcur l hl
    simp only [TLF.wrapLoop] at hl
    by_cases h0 : cur = ""
    · simp [h0] at hl
      exact hacc l hl
    · simp [h0] at hl
      rcases hl with hl | rfl
      · exact hacc l hl
      · rcases hcur with rfl | h
        · exact absurd rfl h0
        · exact h
  | cons w rest ih =>
    intro cur acc hws hacc hcur l hl
    simp only [TLF.wrapLoop] at hl
    by_cases ht : measure (cur ++ (if cur ≠ "" then " " else "") ++ w) font_size ≤ max_width
    · rw [if_pos ht] at hl
      refine ih _ _ (fun x hx => hws x (List.mem_cons_of_mem w hx)) hacc
        (Or.inr (Or.inr ht)) l hl
    · rw [if_neg ht] at hl
      refine ih _ _ (fun x hx => hws x (List.mem_cons_of_mem w hx)) ?_
        (Or.inr (Or.inl (hws w (List.mem_cons_self w rest)))) l hl
      by_cases h0 : cur = ""
      · simpa [h0] using hacc
      · intro x hx
        simp [h0] at hx
        rcases hx with hx | rfl
        · exact hacc x hx
        · rcases hcur with rfl | h
          · exact absurd rfl h0
          · exact h

/-- Soundness invariant of the pack scripts' wrap loop: every emitted line is
a word of `W`, or measures within `max_width`, or was produced by the forced
append of one word to a one-word line. -/
theorem packWrapLoop_sound (measure : Measure) (font_size max_width : ℚ)
    (W : List String) :
    ∀ (ws : List String) (cur : String) (acc : List String),
      (∀ w ∈ ws, w ∈ W) →
      (∀ l ∈ acc, l ∈ W ∨ measure l font_size ≤ max_width ∨
        ∃ c wd, wd ∈ W ∧ countWords c = 1 ∧ l = c ++ " " ++ wd) →
      (cur = "" ∨ cur ∈ W ∨ measure cur font_size ≤ max_width ∨
        ∃ c wd, wd ∈ W ∧ countWords c = 1 ∧ cur = c ++ " " ++ wd) →
      ∀ l ∈ PackPdfs.wrapLoop measure font_size max_width ws cur acc,
        l ∈ W ∨ measure l font_size ≤ max_width ∨
          ∃ c wd, wd ∈ W ∧ countWords c = 1 ∧ l = c ++ " " ++ wd := by
  intro ws
  induction ws with
  | nil =>
    intro cur acc _ hacc hcur l hl
    simp only [PackPdfs.wrapLoop] at hl
    by_cases h0 : cur = ""
    · simp [h0] at hl
      exact hacc l hl
    · simp [h0] at hl
      rcases hl with hl | rfl
      · exact hacc l hl
      · rcases hcur with rfl | h
        · exact absurd rfl h0
        · exact h
  | cons w rest ih =>
    intro cur acc hws hacc hcur l hl
    simp only [PackPdfs.wrapLoop] at hl
    by_cases h0 : cur = ""
    · rw [if_pos h0] at hl
      exact ih _ _ (fun x hx => hws x (List.mem_cons_of_mem w hx)) hacc
        (Or.inr (Or.inl (hws w (List.mem_cons_self w rest)))) l hl
    · rw [if_neg h0] at hl
      by_cases ht : measure (cur ++ " " ++ w) font_size ≤ max_width ∨ countWords cur = 1
      · rw [if_pos ht] at hl
        refine ih _ _ (fun x hx => hws x (List.mem_cons_of_mem w hx)) hacc ?_ l hl
        rcases ht with ht | ht
        · exact Or.inr (Or.inr (Or.inl ht))
        · exact Or.inr (Or.inr (Or.inr
            ⟨cur, w, hws w (List.mem_cons_self w rest), ht, rfl⟩))
      · rw [if_neg ht] at hl
        refine ih _ _ (fun x hx => hws x (List.mem_cons_of_mem w hx)) ?_
          (Or.inr (Or.inl (hws w (List.mem_cons_self w rest)))) l hl
        intro x hx
        simp at hx
        rcases hx with hx | rfl
        · exact hacc x hx
        · rcases hcur with rfl | h
          · exact absurd rfl h0
          · exact h

/-- Counterexample to claim C4: under the character-count measurer with
`max_width = 0`, `wrap_toc_title` of `pack_pdfs_with_toc.py` emits the line
`"a b"` — a two-word line (not a single word) whose measured width `3`
exceeds `max_width = 0`.  The forced append
(`... or len(current_line.split()) == 1`) makes two-word lines exceed the
bound, so the claimed "single word or width ≤ max_width" dichotomy fails for
the pack scripts. -/
theorem claim_C4_counterexample :
    "a b" ∈ PackPdfs.wrap_toc_title strLen "a b" 8 0
    ∧ countWords "a b" = 2
    ∧ ¬ strLen "a b" 8 ≤ 0 := by
  with_unfolding_all decide

/-- Claim C4 as amended: every line returned by `wrap_toc_title` is one of
the title's whitespace-separated words, or measures within `max_width`; in
the two pack scripts there is a third case forced by
`... or len(current_line.split()) == 1`: a line obtained by appending one
word of the title to a one-word line (such a line may exceed `max_width`).
In `TLF_Packager.py` the claimed dichotomy holds as stated. -/
theorem claim_C4_amended_wrap_width_bound :
    (∀ (measure : Measure) (title : String) (font_size max_width : ℚ),
      ∀ l ∈ TLF.wrap_toc_title measure title font_size max_width,
        l ∈ splitWords title ∨ measure l font_size ≤ max_width)
    ∧ (∀ (measure : Measure) (title : String) (font_size max_width : ℚ),
      ∀ l ∈ PackPdfs.wrap_toc_title measure title font_size max_width,
        l ∈ splitWords title ∨ measure l font_size ≤ max_width ∨
          ∃ c wd, wd ∈ splitWords title ∧ countWords c = 1 ∧ l = c ++ " " ++ wd)
    ∧ (∀ (measure : Measure) (title : String) (font_size max_width : ℚ),
      ∀ l ∈ PackRtfs.wrap_toc_title measure title font_size max_width,
        l ∈ splitWords title ∨ measure l font_size ≤ max_width ∨
          ∃ c wd, wd ∈ splitWords title ∧ countWords c = 1 ∧ l = c ++ " " ++ wd) := by
  refine ⟨?_, ?_, ?_⟩
  · intro measure title font_size max_width l hl
    have hl' : l ∈ TLF.wrapLoop measure font_size max_width (splitWords title) "" [] :=
      List.mem_of_mem_filter hl
    exact tlfWrapLoop_sound measure font_size max_width (splitWords title)
      (splitWords title) "" [] (fun w hw => hw) (fun x hx => absurd hx (List.not_mem_nil x))
      (Or.inl rfl) l hl'
  · intro measure title font_size max_width l hl
    have hl' : l ∈ PackPdfs.wrapLoop measure font_size max_width (splitWords title) "" [] :=
      List.mem_of_mem_filter hl
    exact packWrapLoop_sound measure font_size max_width (splitWords title)
      (splitWords title) "" [] (fun w hw => hw) (fun x hx => absurd hx (List.not_mem_nil x))
      (Or.inl rfl) l hl'
  · intro measure title font_size max_width l hl
    have hl' : l ∈ PackRtfs.wrapLoop measure font_size max_width (splitWords title) "" [] :=
      List.mem_of_mem_filter hl
    rw [packWrapLoop_eq] at hl'
    exact packWrapLoop_sound measure font_size max_width (splitWords title)
      (splitWords title) "" [] (fun w hw => hw) (fun x hx => absurd hx (List.not_mem_nil x))
      (Or.inl rfl) l hl'

/-! ### Helper lemmas about the pagination loop -/

theorem sumLc_single (pr : TocEntry × List String) : sumLc [pr] = (pr.2.length : ℤ) := by
  simp [sumLc]

theorem sumLc_append_single (page : Page) (pr : TocEntry × List String) :
    sumLc (page ++ [pr]) = sumLc page + (pr.2.length : ℤ) := by
  simp [sumLc]

theorem sumLc_nonneg (page : Page) : 0 ≤ sumLc page := Int.natCast_nonneg _

theorem paginateLoop_pages_ne_nil (wrapOf : TocEntry → List String) (lpp : ℤ) :
    ∀ (es : List TocEntry) (cur : Page) (cnt : ℤ), cur ≠ [] →
      ∀ p ∈ paginateLoop wrapOf lpp es cur cnt, p ≠ [] := by
  intro es
  induction es with
  | nil =>
    intro cur cnt hcur p hp
    simp only [paginateLoop] at hp
    rw [if_neg (by simpa [List.isEmpty_iff] using hcur)] at hp
    simp at hp
    subst hp
    exact hcur
  | cons e rest ih =>
    intro cur cnt hcur p hp
    simp only [paginateLoop] at hp
    by_cases hf : cnt + ((wrapOf e).length : ℤ) > lpp
    · rw [if_pos hf] at hp
      rcases List.mem_cons.mp hp with rfl | hp
      · exact hcur
      · exact ih [(e, wrapOf e)] ((wrapOf e).length : ℤ) (by simp) p hp
    · rw [if_neg hf] at hp
      exact ih (cur ++ [(e, wrapOf e)]) (cnt + ((wrapOf e).length : ℤ))
        (by simp) p hp

theorem paginateLoop_first_head (wrapOf : TocEntry → List String) (lpp : ℤ) :
    ∀ (es : List TocEntry) (a : TocEntry × List String) (cur : Page) (cnt : ℤ),
      ((paginateLoop wrapOf lpp es (a :: cur) cnt).headD []).head? = some a := by
  intro es
  induction es with
  | nil =>
    intro a cur cnt
    simp [paginateLoop]
  | cons e rest ih =>
    intro a cur cnt
    simp only [paginateLoop]
    by_cases hf : cnt + ((wrapOf e).length : ℤ) > lpp
    · rw [if_pos hf]
      simp
    · rw [if_neg hf]
      rw [show (a :: cur) ++ [(e, wrapOf e)] = a :: (cur ++ [(e, wrapOf e)]) from rfl]
      exact ih a (cur ++ [(e, wrapOf e)]) (cnt + ((wrapOf e).length : ℤ))

theorem paginateLoop_flatten (wrapOf : TocEntry → List String) (lpp : ℤ) :
    ∀ (es : List TocEntry) (cur : Page) (cnt : ℤ),
      (paginateLoop wrapOf lpp es cur cnt).flatten =
        cur ++ es.map (fun e => (e, wrapOf e)) := by
  intro es
  induction es with
  | nil =>
    intro cur cnt
    simp only [paginateLoop]
    by_cases h0 : cur.isEmpty
    · rw [if_pos h0]
      simp [List.isEmpty_iff.mp h0]
    · rw [if_neg h0]
      simp
  | cons e rest ih =>
    intro cur cnt
    simp only [paginateLoop]
    by_cases hf : cnt + ((wrapOf e).length : ℤ) > lpp
    · rw [if_pos hf]
      simp only [List.flatten_cons, ih, List.map_cons]
      simp
    · rw [if_neg hf]
      rw [ih]
      simp

theorem paginateLoop_chain (wrapOf : TocEntry → List String) (lpp : ℤ) :
    ∀ (es : List TocEntry) (cur : Page) (cnt : ℤ), cnt = sumLc cur →
      List.Chain' (fun P Q => sumLc P + headLc Q > lpp)
        (paginateLoop wrapOf lpp es cur cnt) := by
  intro es
  induction es with
  | nil =>
    intro cur cnt _
    simp only [paginateLoop]
    by_cases h0 : cur.isEmpty
    · rw [if_pos h0]; exact List.chain'_nil
    · rw [if_neg h0]; exact List.chain'_singleton cur
  | cons e rest ih =>
    intro cur cnt hcnt
    simp only [paginateLoop]
    by_cases hf : cnt + ((wrapOf e).length : ℤ) > lpp
    · rw [if_pos hf]
      refine List.chain'_cons'.mpr ⟨?_, ih [(e, wrapOf e)] ((wrapOf e).length : ℤ)
        (by simp [sumLc_single])⟩
      intro q hq
      rcases hd : paginateLoop wrapOf lpp rest [(e, wrapOf e)] ((wrapOf e).length : ℤ) with
        _ | ⟨q', rec'⟩
      · rw [hd] at hq; cases hq
      · rw [hd] at hq
        simp only [List.head?_cons, Option.mem_def, Option.some.injEq] at hq
        have hrec := paginateLoop_first_head wrapOf lpp rest (e, wrapOf e) []
          ((wrapOf e).length : ℤ)
        rw [hd] at hrec
        simp only [List.headD_cons] at hrec
        have hQ : headLc q = ((wrapOf e).length : ℤ) := by
          rw [← hq]
          simp [headLc, hrec]
        rw [hQ, ← hcnt]
        exact hf
    · rw [if_neg hf]
      exact ih (cur ++ [(e, wrapOf e)]) (cnt + ((wrapOf e).length : ℤ))
        (by rw [sumLc_append_single, hcnt])

theorem paginateLoop_oversized_alone (wrapOf : TocEntry → List String) (lpp : ℤ) :
    ∀ (es : List TocEntry) (cur : Page) (cnt : ℤ), cnt = sumLc cur →
      (∀ pr ∈ cur, (pr.2.length : ℤ) > lpp → cur = [pr]) →
      ∀ page ∈ paginateLoop wrapOf lpp es cur cnt,
        ∀ pr ∈ page, (pr.2.length : ℤ) > lpp → page = [pr] := by
  intro es
  induction es with
  | nil =>
    intro cur cnt _ hinv page hpage
    simp only [paginateLoop] at hpage
    by_cases h0 : cur.isEmpty
    · rw [if_pos h0] at hpage; cases hpage
    · rw [if_neg h0] at hpage
      simp at hpage
      subst hpage
      exact hinv
  | cons e rest ih =>
    intro cur cnt hcnt hinv page hpage
    simp only [paginateLoop] at hpage
    by_cases hf : cnt + ((wrapOf e).length : ℤ) > lpp
    · rw [if_pos hf] at hpage
      rcases List.mem_cons.mp hpage with rfl | hpage
      · exact hinv
      · refine ih [(e, wrapOf e)] ((wrapOf e).length : ℤ) (by simp [sumLc_single])
          ?_ page hpage
        intro pr hpr _
        simp at hpr
        rw [hpr]
    · rw [if_neg hf] at hpage
      refine ih (cur ++ [(e, wrapOf e)]) (cnt + ((wrapOf e).length : ℤ))
        (by rw [sumLc_append_single, hcnt]) ?_ page hpage
      intro pr hpr hbig
      rcases List.mem_append.mp hpr with hpr | hpr
      · exfalso
        have hcur := hinv pr hpr hbig
        have h1 : cnt = (pr.2.length : ℤ) := by rw [hcnt, hcur, sumLc_single]
        have h2 : (0 : ℤ) ≤ ((wrapOf e).length : ℤ) := Int.natCast_nonneg _
        omega
      · exfalso
        simp at hpr
        have h1 : ((wrapOf e).length : ℤ) > lpp := by
          rw [hpr] at hbig
          exact hbig
        have h2 : (0 : ℤ) ≤ cnt := by
          rw [hcnt]
          exact sumLc_nonneg cur
        omega

theorem paginateLoop_budget (wrapOf : TocEntry → List String) (lpp : ℤ) :
    ∀ (es : List TocEntry) (cur : Page) (cnt : ℤ), cnt = sumLc cur →
      (cur = [] ∨ sumLc cur ≤ lpp ∨ ∃ pr, cur = [pr] ∧ (pr.2.length : ℤ) > lpp) →
      ∀ page ∈ paginateLoop wrapOf lpp es cur cnt,
        page = [] ∨ sumLc page ≤ lpp ∨ ∃ pr, page = [pr] ∧ (pr.2.length : ℤ) > lpp := by
  intro es
  induction es with
  | nil =>
    intro cur cnt _ hinv page hpage
    simp only [paginateLoop] at hpage
    by_cases h0 : cur.isEmpty
    · rw [if_pos h0] at hpage; cases hpage
    · rw [if_neg h0] at hpage
      simp at hpage
      subst hpage
      exact hinv
  | cons e rest ih =>
    intro cur cnt hcnt hinv page hpage
    simp only [paginateLoop] at hpage
    by_cases hf : cnt + ((wrapOf e).length : ℤ) > lpp
    · rw [if_pos hf] at hpage
      rcases List.mem_cons.mp hpage with rfl | hpage
      · exact hinv
      · refine ih [(e, wrapOf e)] ((wrapOf e).length : ℤ) (by simp [sumLc_single])
          ?_ page hpage
        by_cases hle : ((wrapOf e).length : ℤ) ≤ lpp
        · exact Or.inr (Or.inl (by rw [sumLc_single]; exact hle))
        · refine Or.inr (Or.inr ⟨(e, wrapOf e), rfl, ?_⟩)
          show ((wrapOf e).length : ℤ) > lpp
          omega
    · rw [if_neg hf] at hpage
      refine ih (cur ++ [(e, wrapOf e)]) (cnt + ((wrapOf e).length : ℤ))
        (by rw [sumLc_append_single, hcnt]) ?_ page hpage
      refine Or.inr (Or.inl ?_)
      rw [sumLc_append_single, ← hcnt]
      show cnt + ((wrapOf e).length : ℤ) ≤ lpp
      omega

theorem paginateLoop_tail_ne_nil (wrapOf : TocEntry → List String) (lpp : ℤ) :
    ∀ (es : List TocEntry), ∀ p ∈ (paginateLoop wrapOf lpp es [] 0).tail, p ≠ [] := by
  intro es p hp
  cases es with
  | nil => simp [paginateLoop] at hp
  | cons e rest =>
    simp only [paginateLoop] at hp
    by_cases hf : (0 : ℤ) + ((wrapOf e).length : ℤ) > lpp
    · rw [if_pos hf] at hp
      simp only [List.tail_cons] at hp
      exact paginateLoop_pages_ne_nil wrapOf lpp rest [(e, wrapOf e)]
        ((wrapOf e).length : ℤ) (by simp) p hp
    · rw [if_neg hf] at hp
      have hp' := List.mem_of_mem_tail hp
      rw [show ([] : Page) ++ [(e, wrapOf e)] = [(e, wrapOf e)] from rfl] at hp'
      exact paginateLoop_pages_ne_nil wrapOf lpp rest [(e, wrapOf e)]
        (0 + ((wrapOf e).length : ℤ)) (by simp) p hp'

/-- Sum of wrapped-line counts over a list of pages equals the sum over the
flattened entry list. -/
theorem sum_sumLines_eq_flatten (out : List Page) :
    (out.map (fun page => (page.map (fun pr => pr.2.length)).sum)).sum =
      (out.flatten.map (fun pr => pr.2.length)).sum := by
  induction out with
  | nil => rfl
  | cons page rest ih => simp [List.flatten_cons, ih]

/-- Witness for the amended claim C4: concrete applications of all three
soundness statements.  `"Table 1"` fits the width budget `472`; `"a b"` from
the pack wrapper at `max_width = 0` lands in the forced-append case. -/
theorem claim_C4_amended_wrap_width_bound_witness :
    ("Table 1" ∈ splitWords "Table 1" ∨ strLen "Table 1" 8 ≤ 472)
    ∧ ("a b" ∈ splitWords "a b" ∨ strLen "a b" 8 ≤ 0 ∨
        ∃ c wd, wd ∈ splitWords "a b" ∧ countWords c = 1 ∧ "a b" = c ++ " " ++ wd)
    ∧ ("a b" ∈ splitWords "a b" ∨ strLen "a b" 8 ≤ 0 ∨
        ∃ c wd, wd ∈ splitWords "a b" ∧ countWords c = 1 ∧ "a b" = c ++ " " ++ wd) :=
  ⟨claim_C4_amended_wrap_width_bound.1 strLen "Table 1" 8 472 "Table 1"
      (by with_unfolding_all decide),
   claim_C4_amended_wrap_width_bound.2.1 strLen "a b" 8 0 "a b"
      (by with_unfolding_all decide),
   claim_C4_amended_wrap_width_bound.2.2 strLen "a b" 8 0 "a b"
      (by with_unfolding_all decide)⟩

/-- Counterexample to claim C3: the paginator can emit an empty TOC page.
With the A4 page height 842 and font size 8 the budget is
`61 - 2 = 59` lines; a single entry whose title has 60 words, each
over-wide at `max_width = 0`, wraps to 60 lines, so the very first entry
triggers the page flush while the current page is still empty: the first
returned page contains no entry. -/
theorem claim_C3_counterexample :
    (TLF.paginate_wrapped_entries strLen
        [⟨1, String.intercalate " " (List.replicate 60 "a"), 0⟩] 8 0 842).head? = some []
    ∧ (TLF.paginate_wrapped_entries strLen
        [⟨1, String.intercalate " " (List.replicate 60 "a"), 0⟩] 8 0 842).length = 2 := by
  with_unfolding_all decide

/-- Claim C3 as amended: every returned TOC page other than the first
contains at least one entry (only the first page can be empty, when the very
first entry alone overflows the budget — see the counterexample), and an
entry whose wrapped-line count exceeds `lines_per_page` is placed alone on
its own page.  Both halves hold for `TLF_Packager.py` (budget always
`raw - 2`) and for `pack_pdfs_with_toc.py` (budget `raw - 2` exactly when
`include_toc_title`). -/
theorem claim_C3_amended_no_empty_pages :
    (∀ (measure : Measure) (es : List TocEntry) (fs w h : ℚ),
      ∀ p ∈ (TLF.paginate_wrapped_entries measure es fs w h).tail, p ≠ [])
    ∧ (∀ (measure : Measure) (es : List TocEntry) (fs w h : ℚ),
      ∀ page ∈ TLF.paginate_wrapped_entries measure es fs w h,
        ∀ pr ∈ page, (pr.2.length : ℤ) > rawLinesPerPage fs h - 2 → page = [pr])
    ∧ (∀ (measure : Measure) (es : List TocEntry) (fs w h : ℚ) (flag : Bool),
      ∀ p ∈ (PackPdfs.paginate_wrapped_entries measure es fs w h flag).tail, p ≠ [])
    ∧ (∀ (measure : Measure) (es : List TocEntry) (fs w h : ℚ) (flag : Bool),
      ∀ page ∈ PackPdfs.paginate_wrapped_entries measure es fs w h flag,
        ∀ pr ∈ page,
          (pr.2.length : ℤ) > (if flag then rawLinesPerPage fs h - 2 else rawLinesPerPage fs h) →
          page = [pr]) := by
  refine ⟨?_, ?_, ?_, ?_⟩
  · intro measure es fs w h
    exact paginateLoop_tail_ne_nil _ _ es
  · intro measure es fs w h
    exact paginateLoop_oversized_alone _ _ es [] 0 rfl (by intro pr hpr; cases hpr)
  · intro measure es fs w h flag
    exact paginateLoop_tail_ne_nil _ _ es
  · intro measure es fs w h flag
    exact paginateLoop_oversized_alone _ _ es [] 0 rfl (by intro pr hpr; cases hpr)

/-- Witness for the amended claim C3: with budget
`⌊(136 - 100) / 12⌋ - 2 = 1` and the 2-line entry `"a b"` (at
`max_width = 0`), the page holding the oversized entry is in the tail and is
the singleton of that entry. -/
theorem claim_C3_amended_no_empty_pages_witness :
    ([((⟨1, "a b", 0⟩ : TocEntry), ["a", "b"])] : Page) ≠ []
    ∧ ([((⟨1, "a b", 0⟩ : TocEntry), ["a", "b"])] : Page) =
        [((⟨1, "a b", 0⟩ : TocEntry), ["a", "b"])] :=
  ⟨claim_C3_amended_no_empty_pages.1 strLen [⟨1, "a b", 0⟩] 8 0 136
      [(⟨1, "a b", 0⟩, ["a", "b"])] (by with_unfolding_all decide),
   claim_C3_amended_no_empty_pages.2.1 strLen [⟨1, "a b", 0⟩] 8 0 136
      [(⟨1, "a b", 0⟩, ["a", "b"])] (by with_unfolding_all decide)
      (⟨1, "a b", 0⟩, ["a", "b"]) (by with_unfolding_all decide)
      (by with_unfolding_all decide)⟩

/-- Counterexample to claim C6: with `include_toc_title = True`, font size 8
and page height 160 the raw budget is `⌊60 / 12⌋ = 5`; eight one-line
entries paginate to pages of sizes `[3, 3, 2]`.  Page index 1 hosts no
banner, yet it was closed after only 3 lines although its successor's first
entry (1 line, total `3 + 1 ≤ 5`) would fit the claimed unreduced budget —
so pages that do not host the banner do not get the unreduced budget: the
`-2` reduction applies to every page. -/
theorem claim_C6_counterexample :
    ((PackPdfs.paginate_wrapped_entries strLen
        ((List.range 8).map (fun i => ⟨1, "a", (i : ℤ)⟩)) 8 100 160 true).map
          List.length) = [3, 3, 2]
    ∧ sumLc ((PackPdfs.paginate_wrapped_entries strLen
        ((List.range 8).map (fun i => ⟨1, "a", (i : ℤ)⟩)) 8 100 160 true).getD 1 []) = 3
    ∧ headLc ((PackPdfs.paginate_wrapped_entries strLen
        ((List.range 8).map (fun i => ⟨1, "a", (i : ℤ)⟩)) 8 100 160 true).getD 2 []) = 1
    ∧ rawLinesPerPage 8 160 = 5
    ∧ (3 : ℤ) + 1 ≤ 5 := by
  with_unfolding_all decide

/-- Claim C6 as amended: the per-page line budget is
`⌊(page_height - 100) / (font_size * 1.5)⌋`, reduced by 2 for **every** page
when the banner is enabled (`TLF_Packager.py` reduces unconditionally) — not
only for the banner-hosting first page.  This single uniform budget governs
every page break (adjacent pages `P, Q` always satisfy
`sumLc P + headLc Q > budget`), and every page stays within it except a lone
oversized entry (or the possibly-empty first page). -/
theorem claim_C6_amended_uniform_budget :
    (∀ (measure : Measure) (es : List TocEntry) (fs w h : ℚ),
      List.Chain' (fun P Q => sumLc P + headLc Q > rawLinesPerPage fs h - 2)
        (TLF.paginate_wrapped_entries measure es fs w h))
    ∧ (∀ (measure : Measure) (es : List TocEntry) (fs w h : ℚ),
      ∀ page ∈ TLF.paginate_wrapped_entries measure es fs w h,
        page = [] ∨ sumLc page ≤ rawLinesPerPage fs h - 2 ∨
          ∃ pr, page = [pr] ∧ (pr.2.length : ℤ) > rawLinesPerPage fs h - 2)
    ∧ (∀ (measure : Measure) (es : List TocEntry) (fs w h : ℚ) (flag : Bool),
      List.Chain' (fun P Q => sumLc P + headLc Q >
          (if flag then rawLinesPerPage fs h - 2 else rawLinesPerPage fs h))
        (PackPdfs.paginate_wrapped_entries measure es fs w h flag))
    ∧ (∀ (measure : Measure) (es : List TocEntry) (fs w h : ℚ) (flag : Bool),
      ∀ page ∈ PackPdfs.paginate_wrapped_entries measure es fs w h flag,
        page = [] ∨
          sumLc page ≤ (if flag then rawLinesPerPage fs h - 2 else rawLinesPerPage fs h) ∨
          ∃ pr, page = [pr] ∧ (pr.2.length : ℤ) >
            (if flag then rawLinesPerPage fs h - 2 else rawLinesPerPage fs h)) := by
  refine ⟨?_, ?_, ?_, ?_⟩
  · intro measure es fs w h
    exact paginateLoop_chain _ _ es [] 0 rfl
  · intro measure es fs w h
    exact paginateLoop_budget _ _ es [] 0 rfl (Or.inl rfl)
  · intro measure es fs w h flag
    exact paginateLoop_chain _ _ es [] 0 rfl
  · intro measure es fs w h flag
    exact paginateLoop_budget _ _ es [] 0 rfl (Or.inl rfl)

/-- Witness for the amended claim C6: a concrete one-entry page stays within
the uniform budget `61 - 2 = 59`. -/
theorem claim_C6_amended_uniform_budget_witness :
    ([((⟨1, "a", 0⟩ : TocEntry), ["a"])] : Page) = []
    ∨ sumLc [((⟨1, "a", 0⟩ : TocEntry), ["a"])] ≤ rawLinesPerPage 8 842 - 2
    ∨ ∃ pr, ([((⟨1, "a", 0⟩ : TocEntry), ["a"])] : Page) = [pr] ∧
        (pr.2.length : ℤ) > rawLinesPerPage 8 842 - 2 :=
  claim_C6_amended_uniform_budget.2.1 strLen [⟨1, "a", 0⟩] 8 100 842
    [(⟨1, "a", 0⟩, ["a"])] (by with_unfolding_all decide)

/-- Claim C7: concatenating the pages returned by `paginate_wrapped_entries`
(in `TLF_Packager.py`) yields exactly the input entries in their original
order, each paired with its wrapped lines; consequently every entry appears
on exactly one page and the total wrapped-line count over all pages equals
the sum of the entries' wrapped-line counts. -/
theorem claim_C7_pagination_order_preserving (measure : Measure)
    (es : List TocEntry) (font_size toc_text_max_width page_height : ℚ) :
    (TLF.paginate_wrapped_entries measure es font_size toc_text_max_width
        page_height).flatten =
      es.map (fun e => (e, TLF.wrap_toc_title measure e.title font_size
        (toc_text_max_width - ((20 * (e.level - 1) : ℤ) : ℚ))))
    ∧ ((TLF.paginate_wrapped_entries measure es font_size toc_text_max_width
        page_height).map (fun page => (page.map (fun pr => pr.2.length)).sum)).sum =
      (es.map (fun e => (TLF.wrap_toc_title measure e.title font_size
        (toc_text_max_width - ((20 * (e.level - 1) : ℤ) : ℚ))).length)).sum := by
  have h1 : (TLF.paginate_wrapped_entries measure es font_size toc_text_max_width
      page_height).flatten =
      es.map (fun e => (e, TLF.wrap_toc_title measure e.title font_size
        (toc_text_max_width - ((20 * (e.level - 1) : ℤ) : ℚ)))) := by
    unfold TLF.paginate_wrapped_entries
    rw [paginateLoop_flatten]
    rfl
  refine ⟨h1, ?_⟩
  rw [sum_sumLines_eq_flatten, h1, List.map_map]
  rfl

/-! ### Helper lemmas about the TOC page renderer -/

theorem renderLines_head? (measure : Measure)
    (font_size y_spacing x page_number_x page_number_width_local gap : ℚ)
    (page_number_str line : String) (ls : List String) (y : ℚ) :
    (renderLines measure font_size y_spacing x page_number_x
        page_number_width_local gap page_number_str (line :: ls) y).1.head? =
      some ⟨x, y, line, font_size⟩ := by
  cases ls with
  | nil => simp [renderLines]
  | cons l2 ls2 => simp [renderLines]

theorem generatePage_banner_first_ops (measure : Measure)
    (font_size page_width page_number_x gap : ℚ) (toc_page_count : ℤ)
    (e : TocEntry) (line : String) (ls : List String) (prs : Page) :
    (generatePage measure font_size page_width page_number_x gap
        toc_page_count true 0 ((e, line :: ls) :: prs)).1[0]? =
      some ⟨page_width / 2 - measure "Table of Contents" (font_size + 2) / 2, 50,
        "Table of Contents", font_size + 2⟩
    ∧ (generatePage measure font_size page_width page_number_x gap
        toc_page_count true 0 ((e, line :: ls) :: prs)).1[1]? =
      some ⟨50 + ((20 * (e.level - 1) : ℤ) : ℚ), 50 + font_size * 2, line,
        font_size⟩ := by
  constructor
  · simp only [generatePage, and_self, if_true]
    rw [List.singleton_append, List.getElem?_cons_zero]
  · simp only [generatePage, and_self, if_true]
    simp only [renderEntries, renderEntry, List.singleton_append,
      List.getElem?_cons_succ]
    rw [← List.head?_eq_getElem?, List.head?_append, renderLines_head?]
    rfl

theorem renderEntries_targets (measure : Measure)
    (font_size y_spacing page_number_x gap : ℚ) (toc_page_count : ℤ)
    (page_index : ℕ) :
    ∀ (entries : List (TocEntry × List String)) (y : ℚ),
      ((renderEntries measure font_size y_spacing page_number_x gap toc_page_count
          page_index entries y).2.1).map (fun lt => lt.targetPage) =
        entries.map (fun pr => pr.1.target) := by
  intro entries
  induction entries with
  | nil => intro y; rfl
  | cons pr rest ih =>
    intro y
    simp [renderEntries, renderEntry, ih]

theorem generatePages_targets (measure : Measure)
    (font_size page_width page_number_x gap : ℚ) (toc_page_count : ℤ)
    (include_toc_title : Bool) :
    ∀ (pgs : List Page) (page_index : ℕ),
      ((generatePages measure font_size page_width page_number_x gap toc_page_count
          include_toc_title page_index pgs).2).map (fun lt => lt.targetPage) =
        pgs.flatten.map (fun pr => pr.1.target) := by
  intro pgs
  induction pgs with
  | nil => intro page_index; rfl
  | cons pg rest ih =>
    intro page_index
    simp only [generatePages, List.flatten_cons, List.map_append, ih,
      generatePage]
    simp [renderEntries_targets]

/-- Counterexample to claim C9: rendering one one-line entry at font size 8
under the banner, the first entry line is inserted at `y = 66 = 50 + 8 * 2`,
not at `50 + 8 * 1.5 = 62`: the banner advances the cursor by
`font_size * 2`, not by one line-spacing. -/
theorem claim_C9_counterexample :
    ((TLF.generate_toc_pages strLen [[(⟨1, "a", 0⟩, ["a"])]] 8 595 1 535 8).1.headD
        [])[1]? = some ⟨50, 66, "a", 8⟩
    ∧ (66 : ℚ) = 50 + 8 * 2
    ∧ ¬ (66 : ℚ) = 50 + 8 * 1.5 := by
  with_unfolding_all decide

/-- Claim C9 as amended: when the first TOC page renders the centered
"Table of Contents" banner (always in `TLF_Packager.py`, under
`include_toc_title` in `pack_pdfs_with_toc.py`), the banner text is drawn at
the top margin `y = 50` and the cursor then advances by exactly
`font_size * 2` (the code's `y += font_size * 2`) — not by one line-spacing
`font_size * 1.5` — before the first entry line, which is drawn at
`y = 50 + font_size * 2`. -/
theorem claim_C9_amended_banner_advance (measure : Measure)
    (font_size page_width page_number_x gap : ℚ) (toc_page_count : ℤ)
    (e : TocEntry) (line : String) (ls : List String) (prs : Page)
    (restPages : List Page) :
    (((TLF.generate_toc_pages measure (((e, line :: ls) :: prs) :: restPages)
        font_size page_width toc_page_count page_number_x gap).1.headD [])[0]? =
      some ⟨page_width / 2 - measure "Table of Contents" (font_size + 2) / 2, 50,
        "Table of Contents", font_size + 2⟩
      ∧ ((TLF.generate_toc_pages measure (((e, line :: ls) :: prs) :: restPages)
        font_size page_width toc_page_count page_number_x gap).1.headD [])[1]? =
      some ⟨50 + ((20 * (e.level - 1) : ℤ) : ℚ), 50 + font_size * 2, line, font_size⟩)
    ∧ (((PackPdfs.generate_toc_pages measure (((e, line :: ls) :: prs) :: restPages)
        font_size page_width toc_page_count page_number_x gap true).1.headD [])[0]? =
      some ⟨page_width / 2 - measure "Table of Contents" (font_size + 2) / 2, 50,
        "Table of Contents", font_size + 2⟩
      ∧ ((PackPdfs.generate_toc_pages measure (((e, line :: ls) :: prs) :: restPages)
        font_size page_width toc_page_count page_number_x gap true).1.headD [])[1]? =
      some ⟨50 + ((20 * (e.level - 1) : ℤ) : ℚ), 50 + font_size * 2, line, font_size⟩) := by
  have h := generatePage_banner_first_ops measure font_size page_width
    page_number_x gap toc_page_count e line ls prs
  constructor
  · constructor
    · show (generatePage _ _ _ _ _ _ true 0 _).1[0]? = _
      exact h.1
    · show (generatePage _ _ _ _ _ _ true 0 _).1[1]? = _
      exact h.2
  · constructor
    · show (generatePage _ _ _ _ _ _ true 0 _).1[0]? = _
      exact h.1
    · show (generatePage _ _ _ _ _ _ true 0 _).1[1]? = _
      exact h.2

/-- Claim C10: an entry whose title wraps to zero lines (an empty or
whitespace-only title yields `wrap_toc_title = []`) draws nothing — no text
line, no dot leader, no page number — and leaves the cursor in place, yet
`renderEntry` still records one `LinkTarget` whose rectangle spans
`y - font_size` to `y` (height exactly `font_size`); the renderer records
one link target per placed entry (in order, carrying its raw body target
page), and `add_toc_hyperlinks` turns every recorded target into a navigable
link with destination `targetPage + toc_page_count`. -/
theorem claim_C10_empty_title_degenerate_link :
    (∀ (measure : Measure) (font_size max_width : ℚ),
      TLF.wrap_toc_title measure "" font_size max_width = []
      ∧ TLF.wrap_toc_title measure "   " font_size max_width = [])
    ∧ (∀ (measure : Measure)
        (font_size y_spacing page_number_x gap : ℚ) (toc_page_count : ℤ)
        (page_index : ℕ) (e : TocEntry) (y : ℚ),
      renderEntry measure font_size y_spacing page_number_x gap toc_page_count
          page_index (e, []) y =
        ([], ⟨page_index, ⟨50 + ((20 * (e.level - 1) : ℤ) : ℚ), y - font_size,
          page_number_x, y⟩, e.target⟩, y))
    ∧ (∀ (measure : Measure) (font_size page_width page_number_x gap : ℚ)
        (toc_page_count : ℤ) (paginated : List Page),
      ((TLF.generate_toc_pages measure paginated font_size page_width toc_page_count
          page_number_x gap).2).map (fun lt => lt.targetPage) =
        paginated.flatten.map (fun pr => pr.1.target))
    ∧ (∀ (measure : Measure) (font_size page_width page_number_x gap : ℚ)
        (toc_page_count : ℤ) (flag : Bool) (paginated : List Page),
      ((PackPdfs.generate_toc_pages measure paginated font_size page_width
          toc_page_count page_number_x gap flag).2).map (fun lt => lt.targetPage) =
        paginated.flatten.map (fun pr => pr.1.target))
    ∧ (∀ (link_targets : List LinkTarget) (toc_page_count : ℤ),
      (add_toc_hyperlinks link_targets toc_page_count).length = link_targets.length
      ∧ List.Forall₂ (fun lk lt => lk.destPage = lt.targetPage + toc_page_count
          ∧ lk.rect = lt.rect ∧ lk.pageIndex = lt.pageIndex)
        (add_toc_hyperlinks link_targets toc_page_count) link_targets) := by
  refine ⟨?_, ?_, ?_, ?_, ?_⟩
  · intro measure font_size max_width
    exact ⟨rfl, rfl⟩
  · intro measure font_size y_spacing page_number_x gap toc_page_count page_index e y
    rfl
  · intro measure font_size page_width page_number_x gap toc_page_count paginated
    exact generatePages_targets measure font_size page_width page_number_x gap
      toc_page_count true paginated 0
  · intro measure font_size page_width page_number_x gap toc_page_count flag paginated
    exact generatePages_targets measure font_size page_width page_number_x gap
      toc_page_count flag paginated 0
  · intro link_targets toc_page_count
    refine ⟨by simp [add_toc_hyperlinks], ?_⟩
    unfold add_toc_hyperlinks
    rw [List.forall₂_map_left_iff, List.forall₂_same]
    intro lt _
    exact ⟨rfl, rfl, rfl⟩

/-- Claim C1: writing the final document, `add_toc_and_links` rebases every
original bookmark by the TOC page count `T` (final 0-based page
`stored - 1 = T + (original stored - 1)`, i.e. `T +` the original 0-based
body page) and gives every inserted link the destination
`T + targetPage` where `targetPage` is the 0-based body page recorded in its
`LinkTarget`; `T` is the number of pages returned by
`paginate_wrapped_entries`. -/
theorem claim_C1_rebase_bookmarks_and_links (measure : Measure)
    (baseBookmarks : List Bookmark) (font_size : ℚ) :
    let out := TLF.add_toc_and_links measure baseBookmarks font_size
    out.tocPageCount =
        ((TLF.paginate_wrapped_entries measure (extract_toc_entries baseBookmarks)
          font_size (595 - 60 - 50 - measure "99999" font_size - 8) 842).length : ℤ)
      ∧ List.Forall₂ (fun fin orig => fin.page - 1 = out.tocPageCount + (orig.page - 1))
          out.bookmarks baseBookmarks
      ∧ List.Forall₂ (fun lk lt => lk.destPage = out.tocPageCount + lt.targetPage)
          out.links out.linkTargets := by
  intro out
  refine ⟨rfl, ?_, ?_⟩
  · show List.Forall₂ _ (shift_bookmark_pages baseBookmarks out.tocPageCount) baseBookmarks
    unfold shift_bookmark_pages
    rw [List.forall₂_map_left_iff]
    rw [List.forall₂_same]
    intro b _
    ring
  · show List.Forall₂ _ (add_toc_hyperlinks out.linkTargets out.tocPageCount) out.linkTargets
    unfold add_toc_hyperlinks
    rw [List.forall₂_map_left_iff]
    rw [List.forall₂_same]
    intro lt _
    ring

end TLFPack
